import Mathlib

/-!
# Shallow embedding of `bdd100k/eval/lane.py`

The BDD100K lane-marking evaluation compares ground-truth and predicted
bit-packed pixel masks.  Per frame and per semantic sub-task (direction,
style, category) it extracts one-vs-rest binary masks from fixed bit
fields of the packed byte, skeletonizes them, dilates the skeletons by a
disk of a given pixel radius, and derives per-threshold
precision/recall/F-scores; per-frame score matrices are then averaged
across frames and rendered into a flat metric dictionary.

Modelling conventions:
* a binary mask is the finite set of its foreground pixel coordinates
  (`Finset (ℤ × ℤ)`);
* numpy floating point arithmetic is embedded as exact `ℚ` arithmetic;
* `skimage.morphology.skeletonize` is an external library call and is
  kept abstract: every function that uses it takes the skeletonization
  as an explicit argument `skel : Mask → Mask`;
* `skimage.morphology.disk r` is the set of integer offsets at Euclidean
  distance at most `r` from the origin, and `cv2.dilate` with that
  structuring element is the Minkowski sum with the disk (clipping at
  the image border does not change any of the counted intersections,
  because every counted set is intersected with an in-image skeleton);
* image loading (`PIL.Image.open`) and directory listing (`list_files`)
  are external and passed in as arguments.
-/

namespace LaneEval

/-- A pixel coordinate (row, column). -/
abbrev Pix := ℤ × ℤ

/-- A binary mask: the finite set of foreground pixels. -/
abbrev Mask := Finset Pix

/-- An image of packed bytes: a grid (list of rows) of byte values. -/
abbrev Grid := List (List ℕ)

/-- A score matrix, indexed `[category][threshold]`. -/
abbrev Mat := List (List ℚ)

/-- The constant `AVG = "avg"` from `lane.py`. -/
def AVG : String := "avg"

/-- The constant `TOTAL = "total"` from `lane.py`. -/
def TOTAL : String := "total"

/-- Source `get_lane_class(byte, value, offset, width)` from `lane.py`:
`(((byte >> offset) & ((1 << width) - 1)) == value)`, per byte. -/
def get_lane_class (byte value offset width : ℕ) : Bool :=
  ((byte >>> offset) &&& ((1 <<< width) - 1)) == value

/-- Source `get_foreground = partial(get_lane_class, value=0, offset=3, width=1)`. -/
def get_foreground (byte : ℕ) : Bool :=
  get_lane_class byte 0 3 1

/-- Applying a per-byte predicate to a packed-byte image yields the binary
mask of pixels whose byte satisfies it (the vectorised
`get_lane_class(byte_array, ...)` of the source). -/
def gridMask (img : Grid) (f : ℕ → Bool) : Mask :=
  ((List.range img.length).flatMap (fun r =>
    (List.range (img.getD r []).length).filterMap (fun c =>
      if f ((img.getD r []).getD c 0) then some ((r : ℤ), (c : ℤ)) else none))).toFinset

/-- The byte stored at pixel `(r, c)` of a grid, if present. -/
def byteAt (img : Grid) (r c : ℕ) : Option ℕ :=
  (img.get? r).bind (fun row => row.get? c)

/-- The disk structuring element `skimage.morphology.disk t`: integer
offsets `(dr, dc)` with `dr² + dc² ≤ t²`. -/
def diskOffsets (t : ℕ) : Finset Pix :=
  (Finset.Icc (-(t : ℤ)) (t : ℤ) ×ˢ Finset.Icc (-(t : ℤ)) (t : ℤ)).filter
    (fun d => d.1 ^ 2 + d.2 ^ 2 ≤ ((t : ℤ)) ^ 2)

/-- Dilation `cv2.dilate(mask, disk(t))`: the Minkowski sum of the mask with the
disk of radius `t`. -/
def dilate (s : Mask) (t : ℕ) : Mask :=
  s.biUnion (fun q => (diskOffsets t).image (fun d => (q.1 + d.1, q.2 + d.2)))

/-- Source `precision = np.sum(pd_match) / float(n_pd)` where
`pd_match = pd_mask * gt_dil` (both skeletons): the fraction of
predicted-skeleton pixels lying inside the dilated ground-truth
skeleton. -/
def precisionAt (g p : Mask) (t : ℕ) : ℚ :=
  (((p ∩ dilate g t).card : ℚ)) / ((p.card : ℚ))

/-- Source `recall = np.sum(gt_match) / float(n_gt)` where
`gt_match = gt_mask * pd_dil`. -/
def recallAt (g p : Mask) (t : ℕ) : ℚ :=
  (((g ∩ dilate p t).card : ℚ)) / ((g.card : ℚ))

/-- The F-score combination used in `eval_lane_per_cat`:
`0` if `precision + recall == 0`, else `2·p·r/(p+r)`. -/
def harmonic (p r : ℚ) : ℚ :=
  if p + r = 0 then 0 else 2 * p * r / (p + r)

/-- Per-threshold body of the loop in `eval_lane_per_cat`. -/
def fScore (g p : Mask) (t : ℕ) : ℚ :=
  harmonic (precisionAt g p t) (recallAt g p t)

/-- Source `eval_lane_per_cat(gt_mask, pd_mask, bound_ths)` from `lane.py`:
skeletonize both masks; if both skeletons are empty return `1.0` per
threshold, if exactly one is empty return `0.0` per threshold, otherwise
the per-threshold dilation-matched F-score.  `skel` abstracts the
external `skimage.morphology.skeletonize`. -/
def eval_lane_per_cat (skel : Mask → Mask) (gt_mask pd_mask : Mask)
    (bound_ths : List ℕ) : List ℚ :=
  if (skel gt_mask).card = 0 ∧ (skel pd_mask).card = 0 then
    bound_ths.map (fun _ => 1)
  else if (skel gt_mask).card = 0 ∨ (skel pd_mask).card = 0 then
    bound_ths.map (fun _ => 0)
  else bound_ths.map (fun t => fScore (skel gt_mask) (skel pd_mask) t)

/-- The module-level `sub_task_cats` dictionary: one ordered category-name
list per sub-task.  The concrete names come from `bdd100k.label.label`
(not part of this evaluation module), so the lists are kept as data. -/
structure SubTaskCats where
  direction : List String
  style : List String
  category : List String
deriving DecidableEq

/-- The per-frame result `task2arr`: one `[category][threshold]` score
matrix per sub-task, in the dictionary insertion order
(direction, style, category). -/
structure TaskArr where
  direction : Mat
  style : Mat
  category : Mat
deriving DecidableEq

/-- The merged result of `merge_results`: the three per-task matrices
(with the prepended mean row) plus the `total` matrix. -/
structure MergedArr where
  direction : Mat
  style : Mat
  category : Mat
  total : Mat
deriving DecidableEq

/-- Source `eval_lane_per_frame(gt_file, pred_file, bound_ths)`: for each
sub-task, for each `value in range(len(sub_task_cats[task]))`, extract
the one-vs-rest masks with the task's fixed bit offset/width
(`direction` at offset 5 width 1, `style` at offset 4 width 1,
`category` at offset 0 width 3) and score them with
`eval_lane_per_cat`.  `cats` is the current (mutable in the source)
`sub_task_cats` state, whose list lengths drive the loops. -/
def eval_lane_per_frame (skel : Mask → Mask) (cats : SubTaskCats)
    (gt_byte pred_byte : Grid) (bound_ths : List ℕ) : TaskArr :=
  let per := fun (offset width : ℕ) (n : ℕ) =>
    (List.range n).map (fun value =>
      eval_lane_per_cat skel
        (gridMask gt_byte (fun b => get_lane_class b value offset width))
        (gridMask pred_byte (fun b => get_lane_class b value offset width))
        bound_ths)
  { direction := per 5 1 cats.direction.length
    style := per 4 1 cats.style.length
    category := per 0 3 cats.category.length }

/-- Element-wise sum of two rows (`numpy` broadcasting over equal-length
rows). -/
def vecAdd (a b : List ℚ) : List ℚ := List.zipWith (· + ·) a b

/-- Element-wise sum of two matrices. -/
def matAdd (a b : Mat) : Mat := List.zipWith matVecAux a b
  where matVecAux (x y : List ℚ) : List ℚ := vecAdd x y

/-- Element-wise sum of a stack of matrices (`np.sum` over the stacking
axis). -/
def stackSum : List Mat → Mat
  | [] => []
  | [m] => m
  | m :: ms => matAdd m (stackSum ms)

/-- Scale every entry of a matrix (`arr2d *= 100`). -/
def matScale (c : ℚ) (m : Mat) : Mat := m.map (fun row => row.map (fun x => x * c))

/-- Stack mean `np.stack(frames).mean(axis=0)`: element-wise mean of a stack of
matrices. -/
def stackMean (ms : List Mat) : Mat :=
  (stackSum ms).map (fun row => row.map (fun x => x / ((ms.length : ℚ))))

/-- Column-wise sum of a matrix (non-empty fold so widths are kept). -/
def colSum : Mat → List ℚ
  | [] => []
  | [r] => r
  | r :: rs => vecAdd r (colSum rs)

/-- Column mean `arr2d.mean(axis=0)`: the column-wise mean row. -/
def colMean (m : Mat) : List ℚ :=
  (colSum m).map (fun x => x / ((m.length : ℚ)))

/-- Sum of a rational list. -/
def listSum (l : List ℚ) : ℚ := l.foldr (· + ·) 0

/-- Mean of a rational list (`np.mean` of a vector). -/
def listMean (l : List ℚ) : ℚ := listSum l / ((l.length : ℚ))

/-- Grand mean `np.ndarray.mean()` over all entries of a matrix. -/
def matMeanAll (m : Mat) : ℚ :=
  listSum (m.map listSum) / ((listSum (m.map (fun r => ((r.length : ℚ))))))

/-- The last row of a matrix (`arr2d[-1]`). -/
def lastRow (m : Mat) : List ℚ := m.getLastD []

/-- The per-task step of `merge_results`: element-wise mean across
frames, scaled by 100, with the column mean row `arr_mean` concatenated
IN FRONT (`np.concatenate([arr_mean, arr2d], axis=0)`). -/
def mergeTaskMat (ms : List Mat) : Mat :=
  let m := matScale 100 (stackMean ms)
  colMean m :: m

/-- Source `merge_results(task2arr_list)` from `lane.py`: per-task frame means
with the prepended average row, and the `total` row built from
`np.stack([arr2d[-1] for arr2d in task2arr.values()]).mean(axis=0)`,
i.e. from the LAST row of each task matrix. -/
def merge_results (frames : List TaskArr) : MergedArr :=
  let d := mergeTaskMat (frames.map (fun f => f.direction))
  let s := mergeTaskMat (frames.map (fun f => f.style))
  let c := mergeTaskMat (frames.map (fun f => f.category))
  { direction := d, style := s, category := c
    total := [colMean [lastRow d, lastRow s, lastRow c]] }

/-- Key sanitisation `cat_name.replace(" ", "_")`: the pattern is the single character
`" "`, so the replacement is a per-character map. -/
def underscoreSpaces (s : String) : String :=
  String.mk (s.data.map (fun c => if c = ' ' then '_' else c))

/-- The key `"{bound_th}_{task_name}_{cat_name}"` with spaces of the
category name replaced by underscores. -/
def catKey (th : ℕ) (task cat : String) : String :=
  toString th ++ "_" ++ task ++ "_" ++ underscoreSpaces cat

/-- One task's contribution to `f_score_dict`:
`zip(all_task_cats[task_name], arr2d)` then `zip(bound_ths, arr1d)`. -/
def renderTask (task : String) (cats : List String) (m : Mat)
    (bound_ths : List ℕ) : List (String × ℚ) :=
  (cats.zip m).flatMap (fun cr =>
    (bound_ths.zip cr.2).map (fun tv => (catKey tv.1 task cr.1, tv.2)))

/-- Source `render_results(task2arr, all_task_cats, bound_ths)` from `lane.py`:
the flat metric dictionary (iteration order: direction, style, category,
total) plus the final `"average"` entry `task2arr[TOTAL].mean()`. -/
def render_results (all_task_cats : SubTaskCats) (m : MergedArr)
    (bound_ths : List ℕ) : List (String × ℚ) :=
  renderTask ("direction") all_task_cats.direction m.direction bound_ths
    ++ renderTask ("style") all_task_cats.style m.style bound_ths
    ++ renderTask ("category") all_task_cats.category m.category bound_ths
    ++ renderTask TOTAL [AVG] m.total bound_ths
    ++ [("average", matMeanAll m.total)]

/-- Python `dict` lookup on the association list (last write wins). -/
def dictGet (d : List (String × ℚ)) (k : String) : Option ℚ :=
  (d.reverse.find? (fun kv => kv.1 == k)).map (fun kv => kv.2)

/-- Normalisation `sorted(set(bound_ths))`: ascending list of the distinct
thresholds. -/
def sortedDedup (l : List ℕ) : List ℕ :=
  l.toFinset.sort (· ≤ ·)

/-- The effect of one `evaluate_lane_marking` call on the module-level
`sub_task_cats` dictionary: `all_task_cats = sub_task_cats.copy()` is a
SHALLOW copy, so the `cats.append(AVG)` loop appends `"avg"` to the very
list objects held by the module-level `sub_task_cats`. -/
def subTaskCatsAfterCall (s : SubTaskCats) : SubTaskCats :=
  { direction := s.direction ++ [AVG]
    style := s.style ++ [AVG]
    category := s.category ++ [AVG] }

/-- Pairing `zip(gt_files, pred_files)` as consumed by `pool.starmap`: positional
pairing, truncating to the shorter list. -/
def framePairs (gt_files pred_files : List String) : List (String × String) :=
  gt_files.zip pred_files

/-- Source `evaluate_lane_marking(gt_dir, pred_dir, bound_ths, nproc)` from
`lane.py`, with the external collaborators passed in: `load` abstracts
`PIL.Image.open` on a file path, `skel` abstracts skeletonization, and
the directory listings `list_files(...)` are passed as the two file-name
lists.  `cats0` is the `sub_task_cats` state at call time.  Returns the
`f_score_dict` together with the post-call `sub_task_cats` state. -/
def evaluate_lane_marking (load : String → Grid) (skel : Mask → Mask)
    (cats0 : SubTaskCats) (gt_files pred_files : List String)
    (bound_ths : List ℕ) : List (String × ℚ) × SubTaskCats :=
  let ths := sortedDedup bound_ths
  let frames := (framePairs gt_files pred_files).map (fun gp =>
    eval_lane_per_frame skel cats0 (load gp.1) (load gp.2) ths)
  let merged := merge_results frames
  let cats1 := subTaskCatsAfterCall cats0
  (render_results cats1 merged ths, cats1)

/-! ## Basic facts about the boundary F-score engine -/

theorem mem_diskOffsets {t : ℕ} {d : Pix} :
    d ∈ diskOffsets t ↔ d.1 ^ 2 + d.2 ^ 2 ≤ ((t : ℤ)) ^ 2 := by
  unfold diskOffsets
  simp only [Finset.mem_filter, Finset.mem_product, Finset.mem_Icc]
  refine ⟨fun h => h.2, fun h => ⟨⟨?_, ?_⟩, h⟩⟩
  · have h1 : d.1 ^ 2 ≤ ((t : ℤ)) ^ 2 := by nlinarith [sq_nonneg d.2]
    exact abs_le_of_sq_le_sq' h1 (by positivity)
  · have h2 : d.2 ^ 2 ≤ ((t : ℤ)) ^ 2 := by nlinarith [sq_nonneg d.1]
    exact abs_le_of_sq_le_sq' h2 (by positivity)

theorem diskOffsets_mono {t u : ℕ} (h : t ≤ u) : diskOffsets t ⊆ diskOffsets u := by
  intro d hd
  rw [mem_diskOffsets] at hd ⊢
  have : ((t : ℤ)) ^ 2 ≤ ((u : ℤ)) ^ 2 := by
    have ht : ((t : ℤ)) ≤ ((u : ℤ)) := by exact_mod_cast h
    have h0 : (0 : ℤ) ≤ ((t : ℤ)) := by positivity
    nlinarith
  linarith

theorem dilate_mono (s : Mask) {t u : ℕ} (h : t ≤ u) : dilate s t ⊆ dilate s u := by
  intro x hx
  simp only [dilate, Finset.mem_biUnion, Finset.mem_image] at hx ⊢
  obtain ⟨q, hq, d, hd, rfl⟩ := hx
  exact ⟨q, hq, d, diskOffsets_mono h hd, rfl⟩

theorem precisionAt_nonneg (g p : Mask) (t : ℕ) : 0 ≤ precisionAt g p t := by
  unfold precisionAt; positivity

theorem recallAt_nonneg (g p : Mask) (t : ℕ) : 0 ≤ recallAt g p t := by
  unfold recallAt; positivity

theorem precisionAt_le_one (g p : Mask) (t : ℕ) : precisionAt g p t ≤ 1 := by
  unfold precisionAt
  rcases Nat.eq_zero_or_pos p.card with h | h
  · simp [h]
  · exact div_le_one_of_le₀
      (by exact_mod_cast Finset.card_le_card (Finset.inter_subset_left)) (by positivity)

theorem recallAt_le_one (g p : Mask) (t : ℕ) : recallAt g p t ≤ 1 := by
  unfold recallAt
  rcases Nat.eq_zero_or_pos g.card with h | h
  · simp [h]
  · exact div_le_one_of_le₀
      (by exact_mod_cast Finset.card_le_card (Finset.inter_subset_left)) (by positivity)

theorem precisionAt_mono (g p : Mask) {t u : ℕ} (h : t ≤ u) :
    precisionAt g p t ≤ precisionAt g p u := by
  unfold precisionAt
  rcases Nat.eq_zero_or_pos p.card with h0 | h0
  · simp [h0]
  · rw [div_le_div_iff_of_pos_right (by exact_mod_cast h0)]
    exact_mod_cast Finset.card_le_card
      (Finset.inter_subset_inter (Finset.Subset.refl p) (dilate_mono g h))

theorem recallAt_mono (g p : Mask) {t u : ℕ} (h : t ≤ u) :
    recallAt g p t ≤ recallAt g p u := by
  unfold recallAt
  rcases Nat.eq_zero_or_pos g.card with h0 | h0
  · simp [h0]
  · rw [div_le_div_iff_of_pos_right (by exact_mod_cast h0)]
    exact_mod_cast Finset.card_le_card
      (Finset.inter_subset_inter (Finset.Subset.refl g) (dilate_mono p h))

theorem harmonic_nonneg {p r : ℚ} (hp : 0 ≤ p) (hr : 0 ≤ r) : 0 ≤ harmonic p r := by
  unfold harmonic
  split_ifs with h
  · exact le_refl 0
  · have hpr : 0 < p + r := lt_of_le_of_ne (by linarith) (Ne.symm h)
    positivity

theorem harmonic_le_one {p r : ℚ} (hp : 0 ≤ p) (hr : 0 ≤ r) (hp1 : p ≤ 1) (hr1 : r ≤ 1) :
    harmonic p r ≤ 1 := by
  unfold harmonic
  split_ifs with h
  · norm_num
  · have hpr : 0 < p + r := lt_of_le_of_ne (by linarith) (Ne.symm h)
    rw [div_le_one hpr]
    nlinarith

theorem harmonic_mono {p r q s : ℚ} (hp : 0 ≤ p) (hr : 0 ≤ r) (hpq : p ≤ q) (hrs : r ≤ s) :
    harmonic p r ≤ harmonic q s := by
  have hq : 0 ≤ q := hp.trans hpq
  have hs : 0 ≤ s := hr.trans hrs
  by_cases h : p + r = 0
  · have h0 : harmonic p r = 0 := by simp [harmonic, h]
    rw [h0]
    exact harmonic_nonneg hq hs
  · by_cases h' : q + s = 0
    · exact absurd (le_antisymm (by linarith) (by linarith)) h
    · have h1 : 0 < p + r := lt_of_le_of_ne (by linarith) (Ne.symm h)
      have h2 : 0 < q + s := lt_of_le_of_ne (by linarith) (Ne.symm h')
      unfold harmonic
      rw [if_neg h, if_neg h', div_le_div_iff₀ h1 h2]
      nlinarith [mul_nonneg (mul_nonneg hp hq) (sub_nonneg.2 hrs),
        mul_nonneg (mul_nonneg hr hs) (sub_nonneg.2 hpq)]

theorem fScore_nonneg (g p : Mask) (t : ℕ) : 0 ≤ fScore g p t :=
  harmonic_nonneg (precisionAt_nonneg g p t) (recallAt_nonneg g p t)

theorem fScore_le_one (g p : Mask) (t : ℕ) : fScore g p t ≤ 1 :=
  harmonic_le_one (precisionAt_nonneg g p t) (recallAt_nonneg g p t)
    (precisionAt_le_one g p t) (recallAt_le_one g p t)

theorem fScore_mono (g p : Mask) {t u : ℕ} (h : t ≤ u) : fScore g p t ≤ fScore g p u :=
  harmonic_mono (precisionAt_nonneg g p t) (recallAt_nonneg g p t)
    (precisionAt_mono g p h) (recallAt_mono g p h)

theorem length_eval_lane_per_cat (skel : Mask → Mask) (gt_mask pd_mask : Mask)
    (bound_ths : List ℕ) :
    (eval_lane_per_cat skel gt_mask pd_mask bound_ths).length = bound_ths.length := by
  unfold eval_lane_per_cat
  split_ifs <;> simp

/-! ## Spec-side formulation of the boundary F-score (spec §4.3)

These definitions follow the spec's words, to be compared with the
source-side `fScore`: precision is the count of predicted-skeleton
pixels that fall within the dilated ground-truth skeleton divided by the
count of predicted-skeleton pixels, recall symmetrically, and the
F-score is the harmonic mean (`0` when both vanish). -/

/-- Spec-side precision at threshold `t`. -/
def specPrecision (g p : Mask) (t : ℕ) : ℚ :=
  ((p.filter (fun q => q ∈ dilate g t)).card : ℚ) / ((p.card : ℚ))

/-- Spec-side recall at threshold `t`. -/
def specRecall (g p : Mask) (t : ℕ) : ℚ :=
  ((g.filter (fun q => q ∈ dilate p t)).card : ℚ) / ((g.card : ℚ))

/-- Spec-side F-score: harmonic mean `2·P·R/(P+R)`, and `0` when
`P + R = 0`. -/
def specFscore (g p : Mask) (t : ℕ) : ℚ :=
  if specPrecision g p t + specRecall g p t = 0 then 0
  else 2 * specPrecision g p t * specRecall g p t
    / (specPrecision g p t + specRecall g p t)

theorem specPrecision_eq (g p : Mask) (t : ℕ) :
    specPrecision g p t = precisionAt g p t := by
  unfold specPrecision precisionAt
  rw [Finset.filter_mem_eq_inter]

theorem specRecall_eq (g p : Mask) (t : ℕ) :
    specRecall g p t = recallAt g p t := by
  unfold specRecall recallAt
  rw [Finset.filter_mem_eq_inter]

theorem specFscore_eq (g p : Mask) (t : ℕ) : specFscore g p t = fScore g p t := by
  unfold specFscore fScore harmonic
  rw [specPrecision_eq, specRecall_eq]

/-! ## Claims about `eval_lane_per_cat` -/

/-- C4: for every pair of masks and every threshold list, if both
skeletons (equivalently, both input masks, for any skeletonization that
maps a mask to the empty set exactly when the mask is empty) are empty
then `eval_lane_per_cat` returns `1.0` for every threshold, and if
exactly one is empty it returns `0.0` for every threshold. -/
theorem c4_degenerate_scores (skel : Mask → Mask)
    (gt_mask pd_mask : Mask) (bound_ths : List ℕ)
    (hskel : ∀ m : Mask, skel m = ∅ ↔ m = ∅) :
    ((gt_mask = ∅ ∧ pd_mask = ∅) →
      eval_lane_per_cat skel gt_mask pd_mask bound_ths = bound_ths.map (fun _ => 1)) ∧
    (Xor' (gt_mask = ∅) (pd_mask = ∅) →
      eval_lane_per_cat skel gt_mask pd_mask bound_ths = bound_ths.map (fun _ => 0)) := by
  constructor
  · rintro ⟨h1, h2⟩
    have hg : (skel gt_mask).card = 0 := Finset.card_eq_zero.2 ((hskel gt_mask).2 h1)
    have hp : (skel pd_mask).card = 0 := Finset.card_eq_zero.2 ((hskel pd_mask).2 h2)
    unfold eval_lane_per_cat
    rw [if_pos ⟨hg, hp⟩]
  · rintro (⟨h1, h2⟩ | ⟨h1, h2⟩)
    · have hg : (skel gt_mask).card = 0 := Finset.card_eq_zero.2 ((hskel gt_mask).2 h1)
      have hp : ¬ (skel pd_mask).card = 0 := fun hc =>
        h2 ((hskel pd_mask).1 (Finset.card_eq_zero.1 hc))
      unfold eval_lane_per_cat
      rw [if_neg (fun hc => hp hc.2), if_pos (Or.inl hg)]
    · have hp : (skel pd_mask).card = 0 := Finset.card_eq_zero.2 ((hskel pd_mask).2 h1)
      have hg : ¬ (skel gt_mask).card = 0 := fun hc =>
        h2 ((hskel gt_mask).1 (Finset.card_eq_zero.1 hc))
      unfold eval_lane_per_cat
      rw [if_neg (fun hc => hg hc.1), if_pos (Or.inr hp)]

/-- Witness for C4 at a concrete input: the ground-truth mask is empty
and the prediction mask is a single pixel, so every threshold scores
`0.0`. -/
theorem c4_degenerate_scores_witness :
    eval_lane_per_cat id (∅ : Mask) {((0 : ℤ), (0 : ℤ))} [0, 1] = [0, 1].map (fun _ => 0) :=
  (c4_degenerate_scores id ∅ {((0 : ℤ), (0 : ℤ))} [0, 1] (fun _ => Iff.rfl)).2
    (Or.inl ⟨rfl, by simp⟩)

/-- C5: for skeletons that are both non-empty, the score at each
threshold `t` is the harmonic mean of the spec's precision and recall at
`t` (0 when they are both 0). -/
theorem c5_fscore_formula (skel : Mask → Mask) (gt_mask pd_mask : Mask)
    (bound_ths : List ℕ)
    (hg : (skel gt_mask).card ≠ 0) (hp : (skel pd_mask).card ≠ 0) :
    eval_lane_per_cat skel gt_mask pd_mask bound_ths
      = bound_ths.map (fun t => specFscore (skel gt_mask) (skel pd_mask) t) := by
  unfold eval_lane_per_cat
  rw [if_neg (fun hc => hg hc.1), if_neg (fun hc => hc.elim hg hp)]
  have h : (fun t => fScore (skel gt_mask) (skel pd_mask) t)
      = (fun t => specFscore (skel gt_mask) (skel pd_mask) t) :=
    funext (fun t => (specFscore_eq (skel gt_mask) (skel pd_mask) t).symm)
  rw [h]

/-- Witness for C5 at a concrete input: two single-pixel skeletons one
column apart score `0` at threshold `0` and `1` at threshold `1`. -/
theorem c5_fscore_formula_witness :
    eval_lane_per_cat id {((0 : ℤ), (2 : ℤ))} {((0 : ℤ), (1 : ℤ))} [0, 1]
        = [0, 1].map (fun t => specFscore {((0 : ℤ), (2 : ℤ))} {((0 : ℤ), (1 : ℤ))} t) ∧
      eval_lane_per_cat id {((0 : ℤ), (2 : ℤ))} {((0 : ℤ), (1 : ℤ))} [0, 1] = [0, 1] :=
  ⟨c5_fscore_formula id {((0 : ℤ), (2 : ℤ))} {((0 : ℤ), (1 : ℤ))} [0, 1]
      (by decide) (by decide),
    by
      have a0 : (({((0 : ℤ), (1 : ℤ))} : Mask) ∩ dilate {((0 : ℤ), (2 : ℤ))} 0).card = 0 := by
        decide
      have b0 : (({((0 : ℤ), (2 : ℤ))} : Mask) ∩ dilate {((0 : ℤ), (1 : ℤ))} 0).card = 0 := by
        decide
      have a1 : (({((0 : ℤ), (1 : ℤ))} : Mask) ∩ dilate {((0 : ℤ), (2 : ℤ))} 1).card = 1 := by
        decide
      have b1 : (({((0 : ℤ), (2 : ℤ))} : Mask) ∩ dilate {((0 : ℤ), (1 : ℤ))} 1).card = 1 := by
        decide
      norm_num [eval_lane_per_cat, fScore, harmonic, precisionAt, recallAt, a0, b0, a1, b1]⟩

/-- C6: for non-empty skeletons, the per-threshold F-score is monotone
non-decreasing in the threshold: on the threshold list `[t, u]` with
`t ≤ u`, `eval_lane_per_cat` returns the two per-threshold F-scores and
the first is at most the second. -/
theorem c6_fscore_monotone (skel : Mask → Mask) (gt_mask pd_mask : Mask) (t u : ℕ)
    (hg : (skel gt_mask).card ≠ 0) (hp : (skel pd_mask).card ≠ 0) (h : t ≤ u) :
    eval_lane_per_cat skel gt_mask pd_mask [t, u]
        = [fScore (skel gt_mask) (skel pd_mask) t, fScore (skel gt_mask) (skel pd_mask) u] ∧
      fScore (skel gt_mask) (skel pd_mask) t ≤ fScore (skel gt_mask) (skel pd_mask) u := by
  constructor
  · unfold eval_lane_per_cat
    rw [if_neg (fun hc => hg hc.1), if_neg (fun hc => hc.elim hg hp)]
    rfl
  · exact fScore_mono (skel gt_mask) (skel pd_mask) h

/-- Witness for C6 at a concrete input. -/
theorem c6_fscore_monotone_witness :
    eval_lane_per_cat id {((0 : ℤ), (2 : ℤ))} {((0 : ℤ), (1 : ℤ))} [0, 1]
        = [fScore {((0 : ℤ), (2 : ℤ))} {((0 : ℤ), (1 : ℤ))} 0,
           fScore {((0 : ℤ), (2 : ℤ))} {((0 : ℤ), (1 : ℤ))} 1] ∧
      fScore {((0 : ℤ), (2 : ℤ))} {((0 : ℤ), (1 : ℤ))} 0
        ≤ fScore {((0 : ℤ), (2 : ℤ))} {((0 : ℤ), (1 : ℤ))} 1 :=
  c6_fscore_monotone id {((0 : ℤ), (2 : ℤ))} {((0 : ℤ), (1 : ℤ))} 0 1
    (by decide) (by decide) (by decide)

/-- C10: every element of the list returned by `eval_lane_per_cat` lies
in the closed interval `[0, 1]`. -/
theorem c10_scores_in_unit_interval (skel : Mask → Mask) (gt_mask pd_mask : Mask)
    (bound_ths : List ℕ) (x : ℚ)
    (hx : x ∈ eval_lane_per_cat skel gt_mask pd_mask bound_ths) :
    0 ≤ x ∧ x ≤ 1 := by
  unfold eval_lane_per_cat at hx
  split_ifs at hx <;> simp only [List.mem_map] at hx <;> obtain ⟨t, -, rfl⟩ := hx
  · norm_num
  · norm_num
  · exact ⟨fScore_nonneg _ _ _, fScore_le_one _ _ _⟩

/-- Witness for C10 at a concrete input: the score `0` produced at
threshold `0` for two single-pixel skeletons one column apart is inside
`[0, 1]`. -/
theorem c10_scores_in_unit_interval_witness : 0 ≤ (0 : ℚ) ∧ (0 : ℚ) ≤ 1 :=
  c10_scores_in_unit_interval id {((0 : ℤ), (2 : ℤ))} {((0 : ℤ), (1 : ℤ))} [0] 0
    (by
      have a0 : (({((0 : ℤ), (1 : ℤ))} : Mask) ∩ dilate {((0 : ℤ), (2 : ℤ))} 0).card = 0 := by
        decide
      have b0 : (({((0 : ℤ), (2 : ℤ))} : Mask) ∩ dilate {((0 : ℤ), (1 : ℤ))} 0).card = 0 := by
        decide
      norm_num [eval_lane_per_cat, fScore, harmonic, precisionAt, recallAt, a0, b0])

/-! ## The bit-field layout (C8) -/

theorem get_lane_class_eq_field (byte value offset width : ℕ) :
    (get_lane_class byte value offset width = true)
      ↔ byte / 2 ^ offset % 2 ^ width = value := by
  unfold get_lane_class
  rw [beq_iff_eq, Nat.one_shiftLeft, Nat.and_pow_two_sub_one_eq_mod,
    Nat.shiftRight_eq_div_pow]

/-- C8: the per-byte one-vs-rest tests used for the sub-task masks read
fixed bit fields counted from the least-significant bit: category is
bits 0-2 (`offset 0`, `width 3`), the foreground/background flag is bit
3, style is bit 4, direction is bit 5; and in general
`get_lane_class(byte, value, offset, width)` is true exactly when
`((byte >> offset) & (2^width - 1)) == value`.  The last conjunct lifts
this pointwise fact to the extracted binary masks. -/
theorem c8_bit_field_layout (byte value : ℕ) :
    ((get_lane_class byte value 0 3 = true) ↔ byte % 8 = value) ∧
    ((get_foreground byte = true) ↔ byte / 8 % 2 = 0) ∧
    ((get_lane_class byte value 4 1 = true) ↔ byte / 16 % 2 = value) ∧
    ((get_lane_class byte value 5 1 = true) ↔ byte / 32 % 2 = value) ∧
    (∀ offset width : ℕ, (get_lane_class byte value offset width = true)
      ↔ (byte >>> offset) &&& (2 ^ width - 1) = value) ∧
    (∀ (img : Grid) (p : Pix),
      p ∈ gridMask img (fun b => get_lane_class b value 5 1)
        ↔ p ∈ gridMask img (fun b => decide (b / 32 % 2 = value))) := by
  refine ⟨?_, ?_, ?_, ?_, ?_, ?_⟩
  · simpa using get_lane_class_eq_field byte value 0 3
  · simpa using get_lane_class_eq_field byte 0 3 1
  · simpa using get_lane_class_eq_field byte value 4 1
  · simpa using get_lane_class_eq_field byte value 5 1
  · intro offset width
    unfold get_lane_class
    rw [beq_iff_eq, Nat.one_shiftLeft]
  · intro img p
    have h : (fun b => get_lane_class b value 5 1)
        = (fun b => decide (b / 32 % 2 = value)) := by
      funext b
      rw [Bool.eq_iff_iff, get_lane_class_eq_field, decide_eq_true_eq]
      norm_num
    rw [h]

/-! ## Threshold normalisation (C7) -/

theorem sortedDedup_idem (l : List ℕ) : sortedDedup (sortedDedup l) = sortedDedup l := by
  unfold sortedDedup
  rw [Finset.sort_toFinset]

theorem frame_row_lengths (skel : Mask → Mask) (cats : SubTaskCats)
    (gt_byte pred_byte : Grid) (bound_ths : List ℕ) :
    (eval_lane_per_frame skel cats gt_byte pred_byte bound_ths).direction.map List.length
        = List.replicate cats.direction.length bound_ths.length ∧
      (eval_lane_per_frame skel cats gt_byte pred_byte bound_ths).style.map List.length
        = List.replicate cats.style.length bound_ths.length ∧
      (eval_lane_per_frame skel cats gt_byte pred_byte bound_ths).category.map List.length
        = List.replicate cats.category.length bound_ths.length := by
  unfold eval_lane_per_frame
  simp [List.map_map, Function.comp_def, length_eval_lane_per_cat]

/-- C7: `evaluate_lane_marking` first replaces the requested threshold
list by `sorted(set(bound_ths))`: the evaluated thresholds are strictly
ascending, are exactly the distinct input thresholds, the whole
evaluation coincides with the evaluation on the normalised list, and
every per-category score vector of every frame has one entry per
distinct threshold. -/
theorem c7_thresholds_sorted_dedup (load : String → Grid) (skel : Mask → Mask)
    (cats0 : SubTaskCats) (gt_files pred_files : List String) (bound_ths : List ℕ) :
    List.Sorted (· < ·) (sortedDedup bound_ths) ∧
    (sortedDedup bound_ths).toFinset = bound_ths.toFinset ∧
    evaluate_lane_marking load skel cats0 gt_files pred_files bound_ths
      = evaluate_lane_marking load skel cats0 gt_files pred_files (sortedDedup bound_ths) ∧
    (∀ gt_byte pred_byte : Grid,
      (eval_lane_per_frame skel cats0 gt_byte pred_byte
          (sortedDedup bound_ths)).direction.map List.length
        = List.replicate cats0.direction.length (sortedDedup bound_ths).length ∧
      (eval_lane_per_frame skel cats0 gt_byte pred_byte
          (sortedDedup bound_ths)).style.map List.length
        = List.replicate cats0.style.length (sortedDedup bound_ths).length ∧
      (eval_lane_per_frame skel cats0 gt_byte pred_byte
          (sortedDedup bound_ths)).category.map List.length
        = List.replicate cats0.category.length (sortedDedup bound_ths).length) := by
  refine ⟨Finset.sort_sorted_lt _, ?_, ?_, ?_⟩
  · unfold sortedDedup
    rw [Finset.sort_toFinset]
  · unfold evaluate_lane_marking
    rw [sortedDedup_idem]
  · intro gt_byte pred_byte
    exact frame_row_lengths skel cats0 gt_byte pred_byte (sortedDedup bound_ths)

/-! ## The shared-state append bug of `evaluate_lane_marking` (C9) -/

/-- C9: one call to `evaluate_lane_marking` leaves each module-level
category list one `"avg"` entry longer (the shallow `dict.copy` aliases
the inner lists, so `cats.append(AVG)` mutates the module state), the
state is therefore not restored (`evaluate_lane_marking` is not pure
across calls), a second call grows each list again, and a per-frame
evaluation run after one call iterates over one extra category value per
sub-task. -/
theorem c9_sub_task_cats_mutation (s : SubTaskCats) :
    (subTaskCatsAfterCall s).direction.length = s.direction.length + 1 ∧
    (subTaskCatsAfterCall s).style.length = s.style.length + 1 ∧
    (subTaskCatsAfterCall s).category.length = s.category.length + 1 ∧
    subTaskCatsAfterCall s ≠ s ∧
    (subTaskCatsAfterCall (subTaskCatsAfterCall s)).direction.length
      = s.direction.length + 2 ∧
    (∀ (load : String → Grid) (skel : Mask → Mask)
        (gt_files pred_files : List String) (bound_ths : List ℕ),
      (evaluate_lane_marking load skel s gt_files pred_files bound_ths).2
        = subTaskCatsAfterCall s) ∧
    (∀ (skel : Mask → Mask) (gt_byte pred_byte : Grid) (ths : List ℕ),
      (eval_lane_per_frame skel (subTaskCatsAfterCall s) gt_byte pred_byte ths).direction.length
        = (eval_lane_per_frame skel s gt_byte pred_byte ths).direction.length + 1 ∧
      (eval_lane_per_frame skel (subTaskCatsAfterCall s) gt_byte pred_byte ths).style.length
        = (eval_lane_per_frame skel s gt_byte pred_byte ths).style.length + 1 ∧
      (eval_lane_per_frame skel (subTaskCatsAfterCall s) gt_byte pred_byte ths).category.length
        = (eval_lane_per_frame skel s gt_byte pred_byte ths).category.length + 1) := by
  refine ⟨by simp [subTaskCatsAfterCall], by simp [subTaskCatsAfterCall],
    by simp [subTaskCatsAfterCall], ?_, by simp [subTaskCatsAfterCall],
    fun _ _ _ _ _ => rfl, ?_⟩
  · intro h
    have h' := congrArg (fun c => c.direction.length) h
    simp [subTaskCatsAfterCall] at h'
  · intro skel gt_byte pred_byte ths
    refine ⟨?_, ?_, ?_⟩ <;> simp [eval_lane_per_frame, subTaskCatsAfterCall]

/-! ## File pairing by zip truncation (C3) -/

theorem dictGet_append_of_some (l1 l2 : List (String × ℚ)) (k : String) (v : ℚ)
    (h : dictGet l2 k = some v) : dictGet (l1 ++ l2) k = some v := by
  unfold dictGet at h ⊢
  rw [List.reverse_append, List.find?_append]
  cases hfind : l2.reverse.find? (fun kv => kv.1 == k) with
  | none => rw [hfind] at h; simp at h
  | some kv =>
    rw [hfind] at h
    simpa using h

/-- The dictionary `render_results` builds always ends with the `"average"` entry, whose value
is `task2arr[TOTAL].mean()`. -/
theorem dictGet_render_average (ac : SubTaskCats) (m : MergedArr) (ths : List ℕ) :
    dictGet (render_results ac m ths) "average" = some (matMeanAll m.total) := by
  have h0 : dictGet [("average", matMeanAll m.total)] "average"
      = some (matMeanAll m.total) := by
    simp [dictGet]
  unfold render_results
  exact dictGet_append_of_some _ _ _ _ h0

/-- C3 (amended): `evaluate_lane_marking` performs no file-count check at
all.  It pairs ground-truth and prediction files positionally with
`zip`, silently truncating to the shorter list, evaluates
`min(len(gt_files), len(pred_files))` frames, and always produces an
aggregate (the `"average"` entry) from that truncated pairing. -/
theorem c3_zip_truncation (load : String → Grid) (skel : Mask → Mask)
    (cats0 : SubTaskCats) (gt_files pred_files : List String) (bound_ths : List ℕ) :
    (framePairs gt_files pred_files).length = min gt_files.length pred_files.length ∧
    dictGet (evaluate_lane_marking load skel cats0 gt_files pred_files bound_ths).1 "average"
      = some (matMeanAll (merge_results ((framePairs gt_files pred_files).map (fun gp =>
          eval_lane_per_frame skel cats0 (load gp.1) (load gp.2)
            (sortedDedup bound_ths)))).total) := by
  constructor
  · simp [framePairs]
  · simp only [evaluate_lane_marking]
    exact dictGet_render_average _ _ _

/-- C3 counterexample to the claim as stated: with two ground-truth
files and one prediction file, the run does not abort; exactly one frame
pair (not zero) is evaluated, and an aggregate `"average"` entry is
produced. -/
theorem c3_counterexample :
    (framePairs ["a", "b"] ["x"]).length = 1 ∧
    (framePairs ["a", "b"] ["x"]).length ≠ 0 ∧
    (dictGet (evaluate_lane_marking (fun _ => []) id ⟨["pa"], ["sa"], ["ca"]⟩
        ["a", "b"] ["x"] [0]).1 "average").isSome = true := by
  refine ⟨rfl, by norm_num [framePairs], ?_⟩
  simp only [evaluate_lane_marking]
  rw [dictGet_render_average]
  rfl

/-! ## The misaligned average row (C1, C2)

`merge_results` prepends the mean-over-categories row
(`np.concatenate([arr_mean, arr2d], axis=0)`), while the label lists in
`evaluate_lane_marking` append `"avg"` at the END of each category list
and `render_results`/`create_table` zip labels against rows.  The row
labelled by the first category is therefore the mean row, every other
category label is off by one, the row labelled `"avg"` is the LAST
category's row, and the `"total"`/`"average"` number, built from
`arr2d[-1]`, averages the last category's row instead of the mean
row. -/

/-- The spec-side per-sub-task scalar: the mean over thresholds of the
mean-over-categories row of the (percentage-scaled) frame-mean
matrix. -/
def specTaskScalar (ms : List Mat) : ℚ :=
  listMean (colMean (matScale 100 (stackMean ms)))

/-- The spec-side headline number: the mean over the three sub-tasks of
each sub-task's scalar mean-over-categories, averaged over
thresholds. -/
def specHeadlineAverage (frames : List TaskArr) : ℚ :=
  listMean [specTaskScalar (frames.map (fun f => f.direction)),
    specTaskScalar (frames.map (fun f => f.style)),
    specTaskScalar (frames.map (fun f => f.category))]

/-- The spec-side value of the dictionary entry labelled by category
index `i` at threshold index `j`: that category's own frame-mean score,
as a percentage. -/
def specCatValue (ms : List Mat) (i j : ℕ) : ℚ :=
  ((matScale 100 (stackMean ms)).getD i []).getD j 0

/-- The spec-side value of the `"avg"`-labelled entry at threshold index
`j`: the mean over categories of the frame-mean scores. -/
def specAvgValue (ms : List Mat) (j : ℕ) : ℚ :=
  (colMean (matScale 100 (stackMean ms))).getD j 0

/-- A single-frame input exhibiting the misalignment: in every sub-task,
category 0 scores `0.0` and category 1 scores `1.0` at the single
threshold `0`. -/
def frameC1 : TaskArr := ⟨[[0], [1]], [[0], [1]], [[0], [1]]⟩

/-- Two category names per sub-task for the misalignment input. -/
def catsC1 : SubTaskCats :=
  ⟨["parallel", "vertical"], ["solid", "dashed"], ["ca", "cb"]⟩

/-- C1 (bug evaluation): on the single frame `frameC1` (category rows
`[0]` and `[1]` per sub-task, one threshold `0`), the `"average"` value
reported by `render_results ∘ merge_results` is `100` — the mean of the
LAST category's rows, because `merge_results` takes `arr2d[-1]` after
PREPENDING the mean row — while the headline number described by the
spec (mean over sub-tasks of each sub-task's mean-over-categories row)
is `50`. -/
theorem c1_headline_average_bug :
    dictGet (render_results (subTaskCatsAfterCall catsC1) (merge_results [frameC1]) [0])
        "average" = some 100 ∧
      specHeadlineAverage [frameC1] = 50 ∧
      dictGet (render_results (subTaskCatsAfterCall catsC1) (merge_results [frameC1]) [0])
          "average" ≠ some (specHeadlineAverage [frameC1]) := by
  have h1 : dictGet (render_results (subTaskCatsAfterCall catsC1) (merge_results [frameC1]) [0])
      "average" = some 100 := by
    norm_num [dictGet, render_results, renderTask, merge_results, mergeTaskMat, stackMean,
      stackSum, matScale, colMean, colSum, vecAdd, lastRow, matMeanAll, listSum, listMean,
      frameC1, catsC1, subTaskCatsAfterCall, catKey, AVG, TOTAL, List.find?]
  have h2 : specHeadlineAverage [frameC1] = 50 := by
    norm_num [specHeadlineAverage, specTaskScalar, listMean, listSum, colMean, colSum,
      matScale, stackMean, stackSum, vecAdd, frameC1]
  refine ⟨h1, h2, ?_⟩
  rw [h1, h2]
  simp only [ne_eq, Option.some.injEq]
  norm_num

/-- C2 (bug evaluation): on the same single frame, the dictionary entry
`"0_direction_vertical"` holds `0` — the row of category `"parallel"` —
although the `"vertical"` category's own frame-mean percentage is `100`;
and the `"0_direction_avg"` entry holds `100` — the `"vertical"` row —
although the mean-over-categories value is `50`.  The zip of the
appended label list against the mean-row-first matrix shifts every label
by one. -/
theorem c2_category_rows_misaligned :
    dictGet (render_results (subTaskCatsAfterCall catsC1) (merge_results [frameC1]) [0])
        "0_direction_vertical" = some 0 ∧
      specCatValue ([frameC1].map (fun f => f.direction)) 1 0 = 100 ∧
      dictGet (render_results (subTaskCatsAfterCall catsC1) (merge_results [frameC1]) [0])
          "0_direction_avg" = some 100 ∧
      specAvgValue ([frameC1].map (fun f => f.direction)) 0 = 50 ∧
      dictGet (render_results (subTaskCatsAfterCall catsC1) (merge_results [frameC1]) [0])
          "0_direction_vertical"
        ≠ some (specCatValue ([frameC1].map (fun f => f.direction)) 1 0) ∧
      dictGet (render_results (subTaskCatsAfterCall catsC1) (merge_results [frameC1]) [0])
          "0_direction_avg"
        ≠ some (specAvgValue ([frameC1].map (fun f => f.direction)) 0) := by
  have k1 : catKey 0 "total" "avg" = "0_total_avg" := by decide
  have k2 : catKey 0 "category" "avg" = "0_category_avg" := by decide
  have k3 : catKey 0 "category" "cb" = "0_category_cb" := by decide
  have k4 : catKey 0 "category" "ca" = "0_category_ca" := by decide
  have k5 : catKey 0 "style" "avg" = "0_style_avg" := by decide
  have k6 : catKey 0 "style" "dashed" = "0_style_dashed" := by decide
  have k7 : catKey 0 "style" "solid" = "0_style_solid" := by decide
  have k8 : catKey 0 "direction" "avg" = "0_direction_avg" := by decide
  have k9 : catKey 0 "direction" "vertical" = "0_direction_vertical" := by decide
  have k10 : catKey 0 "direction" "parallel" = "0_direction_parallel" := by decide
  have b1 : ("average" == "0_direction_vertical") = false := by decide
  have b2 : ("0_total_avg" == "0_direction_vertical") = false := by decide
  have b3 : ("0_category_avg" == "0_direction_vertical") = false := by decide
  have b4 : ("0_category_cb" == "0_direction_vertical") = false := by decide
  have b5 : ("0_category_ca" == "0_direction_vertical") = false := by decide
  have b6 : ("0_style_avg" == "0_direction_vertical") = false := by decide
  have b7 : ("0_style_dashed" == "0_direction_vertical") = false := by decide
  have b8 : ("0_style_solid" == "0_direction_vertical") = false := by decide
  have b9 : ("0_direction_avg" == "0_direction_vertical") = false := by decide
  have b10 : ("0_direction_vertical" == "0_direction_vertical") = true := by decide
  have c1 : ("average" == "0_direction_avg") = false := by decide
  have c2 : ("0_total_avg" == "0_direction_avg") = false := by decide
  have c3 : ("0_category_avg" == "0_direction_avg") = false := by decide
  have c4 : ("0_category_cb" == "0_direction_avg") = false := by decide
  have c5 : ("0_category_ca" == "0_direction_avg") = false := by decide
  have c6 : ("0_style_avg" == "0_direction_avg") = false := by decide
  have c7 : ("0_style_dashed" == "0_direction_avg") = false := by decide
  have c8 : ("0_style_solid" == "0_direction_avg") = false := by decide
  have c9 : ("0_direction_avg" == "0_direction_avg") = true := by decide
  have h1 : dictGet (render_results (subTaskCatsAfterCall catsC1) (merge_results [frameC1]) [0])
      "0_direction_vertical" = some 0 := by
    norm_num [dictGet, render_results, renderTask, merge_results, mergeTaskMat, stackMean,
      stackSum, matScale, colMean, colSum, vecAdd, lastRow, matMeanAll, listSum, listMean,
      frameC1, catsC1, subTaskCatsAfterCall, AVG, TOTAL, List.find?,
      k1, k2, k3, k4, k5, k6, k7, k8, k9, k10, b1, b2, b3, b4, b5, b6, b7, b8, b9, b10]
  have h2 : specCatValue ([frameC1].map (fun f => f.direction)) 1 0 = 100 := by
    norm_num [specCatValue, matScale, stackMean, stackSum, vecAdd, frameC1]
  have h3 : dictGet (render_results (subTaskCatsAfterCall catsC1) (merge_results [frameC1]) [0])
      "0_direction_avg" = some 100 := by
    norm_num [dictGet, render_results, renderTask, merge_results, mergeTaskMat, stackMean,
      stackSum, matScale, colMean, colSum, vecAdd, lastRow, matMeanAll, listSum, listMean,
      frameC1, catsC1, subTaskCatsAfterCall, AVG, TOTAL, List.find?,
      k1, k2, k3, k4, k5, k6, k7, k8, k9, k10, c1, c2, c3, c4, c5, c6, c7, c8, c9]
  have h4 : specAvgValue ([frameC1].map (fun f => f.direction)) 0 = 50 := by
    norm_num [specAvgValue, colMean, colSum, matScale, stackMean, stackSum, vecAdd, frameC1]
  refine ⟨h1, h2, h3, h4, ?_, ?_⟩
  · rw [h1, h2]
    simp only [ne_eq, Option.some.injEq]
    norm_num
  · rw [h3, h4]
    simp only [ne_eq, Option.some.injEq]
    norm_num

end LaneEval
